import Mathlib

/-!
# smsmenu-lua build script (`build.js`)

A shallow embedding of the bundling script: the module resolver handed to the
bundler (`options.resolveModule`), the constants of the script and the
top-level sequence "ensure the output directory, bundle, write, report".

JavaScript strings are modelled by `String`.  The file system is a map from a
path string to what `lstat` reports for that path; which path strings name the
same entry is a fact of the host (`Host.entryId`), and a write shows under
every spelling of the entry written.  The Node.js calls the script
makes (`fs.existsSync`, `fs.lstatSync`, `fs.mkdirSync`, `fs.writeFileSync`,
`String.prototype.replace`, `path.join`, `path.sep`) are modelled next to the
code that uses them; `luabundle.bundle` is an external library and is a
parameter of the model.
-/

namespace SmsMenuBuild

/-! ## Host platform, `path.sep`, `path.join` -/

/-- The two flavours of the Node.js `path` module. -/
inductive Platform where
  | posix
  | win32
deriving DecidableEq, Repr

/-- The constant `path.sep`: `/` on POSIX, backslash on Windows. -/
def Platform.sep : Platform → Char
  | .posix => '/'
  | .win32 => Char.ofNat 92

/-- The call `path.join(a, b)` for two plain segments (nothing to normalise). -/
def pathJoin (pl : Platform) (a b : String) : String :=
  a ++ String.singleton pl.sep ++ b

/-! ## `String.prototype.replace` with a global single-character regex -/

/-- The operation `GetSubstitution` of ECMAScript for a regex without capture
groups: in the replacement text `$$` is a dollar sign, `$&` the matched text, dollar-backtick
the text before the match, dollar-apostrophe the text after it; every other
character (a lone `$`, `$1`, `$<` included) stands for itself. -/
def getSubstitution (matched before after : List Char) : List Char → List Char
  | [] => []
  | [c] => [c]
  | c :: d :: t =>
    if c = '$' then
      if d = '$' then '$' :: getSubstitution matched before after t
      else if d = '&' then matched ++ getSubstitution matched before after t
      else if d = Char.ofNat 96 then before ++ getSubstitution matched before after t
      else if d = Char.ofNat 39 then after ++ getSubstitution matched before after t
      else c :: getSubstitution matched before after (d :: t)
    else c :: getSubstitution matched before after (d :: t)

/-- Left-to-right scan of `subject.replace(/c/g, replacement)`; `before` is the
part of the subject already passed. -/
def replaceFrom (c : Char) (replacement : List Char) : List Char → List Char → List Char
  | _, [] => []
  | before, x :: t =>
    if x = c then
      getSubstitution [c] before t replacement ++ replaceFrom c replacement (before ++ [x]) t
    else x :: replaceFrom c replacement (before ++ [x]) t

/-- The call `subject.replace(/c/g, replacement)` for a literal character `c`. -/
def jsReplaceAll (c : Char) (replacement subject : String) : String :=
  ⟨replaceFrom c replacement.data [] subject.data⟩

/-! ## File system -/

/- Results of calls that may throw are compared by `decide` in the examples. -/
deriving instance DecidableEq for Except

/-- What `lstat` sees at a path. -/
inductive Entry where
  | absent
  | file (content : String)
  | dir
  | symlink (target : String)
deriving DecidableEq, Repr

/-- A file system state, seen through paths: path string to the entry it names.
Several spellings may name one entry (repeated separators, letter case on some
volumes, directory links, hard links); they then show the same entry. -/
abbrev FS := String → Entry

/-- The state after the entry that `q` names is set to `e`.  `entryId` is the
host's identification of spellings: two paths name the same entry when they
have the same `entryId`.  The change shows under every spelling of the entry
of `q`, that is under every path with the identity of `q` that shows what `q`
shows. -/
def FS.setEntry (entryId : String → String) (fs : FS) (q : String) (e : Entry) : FS :=
  fun p => if entryId p = entryId q ∧ fs p = fs q then e else fs p

/-- A thrown JavaScript `Error`; only its `message` is read by the script. -/
structure JSError where
  message : String
deriving DecidableEq, Repr

/-- Number of symbolic links the host follows before giving up (`ELOOP`). -/
def maxSymlinks : Nat := 40

/-- Follow symbolic links from `p`, at most `fuel` of them; the path of the
first entry that is not a link, or `none` when the links do not end. -/
def follow (fs : FS) : Nat → String → Option String
  | 0, p =>
    match fs p with
    | .symlink _ => none
    | _ => some p
  | n + 1, p =>
    match fs p with
    | .symlink t => follow fs n t
    | _ => some p

/-- The call `fs.existsSync(p)`: follows links; `false` for a missing path, a dangling
link or a link loop; never throws. -/
def existsSync (fs : FS) (p : String) : Bool :=
  match follow fs maxSymlinks p with
  | some q => decide (fs q ≠ Entry.absent)
  | none => false

/-- The part of `fs.Stats` the script looks at. -/
inductive Stats where
  | file
  | directory
  | symbolicLink
deriving DecidableEq, Repr

/-- The method `stats.isFile()`. -/
def Stats.isFile : Stats → Bool
  | .file => true
  | _ => false

/-- The call `fs.lstatSync(p)`: does not follow links; throws on a missing path. -/
def lstatSync (fs : FS) (p : String) : Except JSError Stats :=
  match fs p with
  | .absent => .error ⟨"ENOENT: no such file or directory, lstat " ++ p⟩
  | .file _ => .ok .file
  | .dir => .ok .directory
  | .symlink _ => .ok .symbolicLink

/-- File-system probes made by the resolver, in call order. -/
inductive FsCall where
  | existsSync (p : String)
  | lstatSync (p : String)
deriving DecidableEq, Repr

/-! ## The script: constants and `options.resolveModule` -/

/-- The constant `outDir`, set to `build`. -/
def outDir : String := "build"

/-- The constant `outFile`, set to `path.join(outDir, "smsmenu.lua")`. -/
def outFile (pl : Platform) : String := pathJoin pl outDir "smsmenu.lua"

/-- The constant `srcFile`, set to `path.join("src", "smsmenu.lua")`. -/
def srcFile (pl : Platform) : String := pathJoin pl "src" "smsmenu.lua"

/-- The constant `ignoredModules`, lines 14-22. -/
def ignoredModules : List String :=
  ["lib.moonloader", "lib.mimgui", "ffi", "lib.dkjson", "lfs", "lib.samp.events", "encoding"]

/-- The list `options.paths`, lines 27-32. -/
def paths : List String := ["?.lua", "?/init.lua", "src/?.lua", "src/?/init.lua"]

/-- The expression `name.replace(/\./g, path.sep)` of line 36. -/
def platformName (pl : Platform) (name : String) : String :=
  jsReplaceAll '.' (String.singleton pl.sep) name

/-- The expression `pattern.replace(/\?/g, platformName)` of line 38: the
candidate path of a pattern. -/
def candidate (platformName pattern : String) : String :=
  jsReplaceAll '?' platformName pattern

/-- The `for (const pattern of packagePaths)` loop of `resolveModule`: the
value returned (or the error thrown) and the probes made. -/
def resolveLoop (fs : FS) (platformName : String) :
    List String → Except JSError (Option String) × List FsCall
  | [] => (.ok none, [])
  | pattern :: rest =>
    let p := candidate platformName pattern
    if existsSync fs p then
      match lstatSync fs p with
      | .error e => (.error e, [.existsSync p, .lstatSync p])
      | .ok st =>
        if st.isFile then (.ok (some p), [.existsSync p, .lstatSync p])
        else
          let r := resolveLoop fs platformName rest
          (r.1, .existsSync p :: .lstatSync p :: r.2)
    else
      let r := resolveLoop fs platformName rest
      (r.1, .existsSync p :: r.2)

/-- The function `options.resolveModule(name, packagePaths)`, lines 34-44;
`none` is JavaScript `null`. -/
def resolveModule (pl : Platform) (fs : FS) (name : String) (packagePaths : List String) :
    Except JSError (Option String) × List FsCall :=
  if ignoredModules.contains name then (.ok none, [])
  else resolveLoop fs (platformName pl name) packagePaths

/-! ## Node.js calls of the top-level script -/

/-- The environment of a run: the platform, the external bundler and the
reasons outside the path map (permissions, disk space, a missing parent
directory) for which the host refuses to create a directory or to write a
file.  `luabundle` stands for `luabundle.bundle(srcFile, options)` seen as a
function of the text of the entry file (`none` when it cannot be read) and, for
each module name, of what `options.resolveModule` answers for it together with
the text of the file it names.  `entryId` is the host's identification of path
spellings (see `FS.setEntry`); the output file and the output directory are two
entries on every host, which `outputApart` records. -/
structure Host where
  platform : Platform
  luabundle : Option String →
    (String → Except JSError (Option (String × Option String))) → Except JSError String
  mkdirDenied : String → Option JSError
  writeDenied : String → Option JSError
  entryId : String → String
  outputApart : entryId (outFile platform) ≠ entryId outDir

/-- The call `fs.readFileSync(p)` as far as its text goes: follows links;
`none` when the call throws. -/
def readFile (fs : FS) (p : String) : Option String :=
  match follow fs maxSymlinks p with
  | some q =>
    match fs q with
    | .file content => some content
    | _ => none
  | none => none

/-- The call `fs.mkdirSync(p)` with the `recursive` option, for a path whose
parent exists: creates a missing directory (seen under every spelling of it), accepts an
existing one (also behind a link), throws on anything else in the way. -/
def mkdirSync (h : Host) (fs : FS) (p : String) : Except JSError FS :=
  match fs p with
  | .absent =>
    match h.mkdirDenied p with
    | some e => .error e
    | none => .ok (fs.setEntry h.entryId p .dir)
  | .dir => .ok fs
  | .file _ => .error ⟨"EEXIST: file already exists, mkdir " ++ p⟩
  | .symlink _ =>
    match follow fs maxSymlinks p with
    | some q =>
      if fs q = .dir then .ok fs
      else .error ⟨"ENOENT: no such file or directory, mkdir " ++ p⟩
    | none => .error ⟨"ELOOP: too many symbolic links encountered, mkdir " ++ p⟩

/-- The call `fs.writeFileSync(p, data)`: follows links, creates the file or
replaces its whole content, which then shows under every spelling of that
file; a failed call leaves the state as it was. -/
def writeFileSync (h : Host) (fs : FS) (p : String) (data : String) : Except JSError FS :=
  match follow fs maxSymlinks p with
  | none => .error ⟨"ELOOP: too many symbolic links encountered, open " ++ p⟩
  | some q =>
    match fs q with
    | .dir => .error ⟨"EISDIR: illegal operation on a directory, open " ++ p⟩
    | .symlink _ => .error ⟨"ELOOP: too many symbolic links encountered, open " ++ p⟩
    | _ =>
      match h.writeDenied q with
      | some e => .error e
      | none => .ok (fs.setEntry h.entryId q (.file data))

/-! ## The top-level script -/

/-- Lines 9-11: `if (!fs.existsSync(outDir)) fs.mkdirSync(outDir, ...)`. -/
def ensureDir (h : Host) (fs : FS) : Except JSError FS :=
  if existsSync fs outDir then .ok fs else mkdirSync h fs outDir

/-- What the bundler learns about a module name: the answer of
`options.resolveModule(name, options.paths)` and the text of the file named. -/
def moduleLookup (pl : Platform) (fs : FS) (name : String) :
    Except JSError (Option (String × Option String)) :=
  match (resolveModule pl fs name paths).1 with
  | .error e => .error e
  | .ok none => .ok none
  | .ok (some p) => .ok (some (p, readFile fs p))

/-- Line 48: `luabundle.bundle(srcFile, options)`. -/
def bundle (h : Host) (fs : FS) : Except JSError String :=
  h.luabundle (readFile fs (srcFile h.platform)) (moduleLookup h.platform fs)

/-- A call of `console.log` or `console.error`. -/
inductive ConsoleCall where
  | log (line : String)
  | error (line : String)
deriving DecidableEq, Repr

/-- How the process ends: the script runs to its end, calls `process.exit`,
or dies of an exception nothing catches. -/
inductive Termination where
  | completed
  | exit (code : Nat)
  | uncaught (e : JSError)
deriving DecidableEq, Repr

/-- Exit status of the process; Node.js exits with 1 on an uncaught exception. -/
def Termination.exitStatus : Termination → Nat
  | .completed => 0
  | .exit code => code
  | .uncaught _ => 1

/-- What a run leaves behind. `writeCalls` lists the `writeFileSync` calls made
(path and data), successful or not. -/
structure RunResult where
  fs : FS
  console : List ConsoleCall
  writeCalls : List (String × String)
  termination : Termination

/-- The whole script, lines 9-11 and 47-54. -/
def run (h : Host) (fs : FS) : RunResult :=
  match ensureDir h fs with
  | .error e => ⟨fs, [], [], .uncaught e⟩
  | .ok fs1 =>
    match bundle h fs1 with
    | .error e => ⟨fs1, [.error ("Bundling failed: " ++ e.message)], [], .exit 1⟩
    | .ok bundledContent =>
      match writeFileSync h fs1 (outFile h.platform) bundledContent with
      | .error e =>
        ⟨fs1, [.error ("Bundling failed: " ++ e.message)],
          [(outFile h.platform, bundledContent)], .exit 1⟩
      | .ok fs2 =>
        ⟨fs2, [.log ("Successfully bundled to " ++ outFile h.platform)],
          [(outFile h.platform, bundledContent)], .completed⟩

/-! ## Specification-side definitions and example inputs -/

/-- The entry at `p` is a regular file. -/
def isRegularFile (fs : FS) (p : String) : Bool :=
  match fs p with
  | .file _ => true
  | _ => false

/-- First-match resolution as the specification words it: the first candidate
path, in pattern order, that is an existing regular file. -/
def firstMatch (fs : FS) (platformName : String) (patterns : List String) : Option String :=
  (patterns.map (candidate platformName)).find? (isRegularFile fs)

/-- Lua identifier characters. -/
def isIdentStart (c : Char) : Bool := c.isAlpha || c = '_'

/-- Lua identifier characters after the first. -/
def isIdentChar (c : Char) : Bool := c.isAlphanum || c = '_'

/-- Scanner for dotted identifiers; `atStart` says an identifier must begin. -/
def dottedFrom : Bool → List Char → Bool
  | atStart, [] => !atStart
  | true, c :: t => isIdentStart c && dottedFrom false t
  | false, c :: t => if c = '.' then dottedFrom true t else isIdentChar c && dottedFrom false t

/-- The input constraint of the specification on module names: a non-empty
dotted identifier such as `a.b.c`. -/
def isDottedIdentifier (name : String) : Bool := dottedFrom true name.data

/-- A toy bundler for examples: an entry of the form `require NAME` is followed
by the text of module `NAME`; any other entry is its own bundle. -/
def inlineOneRequire (entry : Option String)
    (lookup : String → Except JSError (Option (String × Option String))) :
    Except JSError String :=
  match entry with
  | none => .error ⟨"ENOENT: no such file or directory, open entry"⟩
  | some src =>
    if src.data.take 8 = "require ".data then
      match lookup ⟨src.data.drop 8⟩ with
      | .ok (some (_, some body)) => .ok (src ++ "\n" ++ body)
      | .ok _ => .error ⟨"Could not resolve module: " ++ ⟨src.data.drop 8⟩⟩
      | .error e => .error e
    else .ok src

/-- Scanner of `lexicalId`; `afterSep` says the last character was a separator. -/
def collapseSeps (isSep : Char → Bool) (sep : Char) : Bool → List Char → List Char
  | _, [] => []
  | afterSep, c :: t =>
    if isSep c then
      if afterSep then collapseSeps isSep sep true t
      else sep :: collapseSeps isSep sep true t
    else c :: collapseSeps isSep sep false t

/-- A lexical identification of path spellings: a run of separators counts as
one separator (on Windows `/` separates too).  The example hosts use it; a real
host identifies more (case, links). -/
def lexicalId (pl : Platform) (p : String) : String :=
  ⟨collapseSeps (fun c => c = '/' || (pl = .win32 && c = Char.ofNat 92)) pl.sep false p.data⟩

/-- The view of a POSIX file tree given by its entries under their plain
spelling: every spelling shows the entry of its `lexicalId`. -/
def lexicalView (entries : String → Entry) : FS := fun p => entries (lexicalId .posix p)

/-- A POSIX host that refuses nothing and bundles with `inlineOneRequire`. -/
def toyHost : Host :=
  ⟨.posix, inlineOneRequire, fun _ => none, fun _ => none, lexicalId .posix, by decide⟩

/-- A small file system for examples: `src/foo/bar.lua` is a regular file. -/
def fsFooBar : FS := fun p =>
  if p = "src/foo/bar.lua" then .file "return 1" else .absent

/-- The entry file requires `build.smsmenu`, found under `src/`. -/
def fsRequiresBuild : FS := lexicalView fun p =>
  if p = "src/smsmenu.lua" then .file "require build.smsmenu"
  else if p = "src/build/smsmenu.lua" then .file "return 1"
  else .absent

/-- A module `ffi.lua` lies in the working directory. -/
def fsFfi : FS := fun p => if p = "ffi.lua" then .file "return 2" else .absent

/-- A file `main.lua` lies in the working directory. -/
def fsMain : FS := fun p => if p = "main.lua" then .file "print(1)" else .absent

/-- Here `a.lua` is a link to the regular file `real.lua`; `src/a.lua` is a
regular file. -/
def fsLinked : FS := fun p =>
  if p = "a.lua" then .symlink "real.lua"
  else if p = "real.lua" then .file "return 3"
  else if p = "src/a.lua" then .file "return 4"
  else .absent

/-- A host like `toyHost` whose working directory is read-only. -/
def readOnlyHost : Host :=
  ⟨.posix, inlineOneRequire, fun _ => some ⟨"EACCES: permission denied, mkdir build"⟩,
    fun _ => some ⟨"EACCES: permission denied, open build/smsmenu.lua"⟩,
    lexicalId .posix, by decide⟩

/-- An entry file without dependencies and an output file from an earlier build. -/
def fsPlain : FS := lexicalView fun p =>
  if p = "src/smsmenu.lua" then .file "print(1)"
  else if p = "build" then .dir
  else if p = "build/smsmenu.lua" then .file "stale"
  else .absent

/-- A project whose entry file requires `util`, found under `src/`; nothing
has been built yet. -/
def fsProject : FS := lexicalView fun p =>
  if p = "src/smsmenu.lua" then .file "require util"
  else if p = "src/util.lua" then .file "return 1"
  else .absent

/-- The entry file requires `build..smsmenu`: with the empty name between the
dots the candidate of `?.lua` is `build//smsmenu.lua`, another spelling of the
output file. -/
def fsRequiresAlias : FS := lexicalView fun p =>
  if p = "src/smsmenu.lua" then .file "require build..smsmenu"
  else if p = "src/build/smsmenu.lua" then .file "return 1"
  else .absent

/-- An empty working directory: the entry file is missing. -/
def fsEmpty : FS := fun _ => .absent

/-! ## Lemmas on the file system model -/

theorem follow_of_not_symlink (fs : FS) (n : Nat) (p : String)
    (h : ∀ t, fs p ≠ .symlink t) : follow fs n p = some p := by
  cases n <;> (unfold follow; split)
  · rename_i t heq; exact absurd heq (h t)
  · rfl
  · rename_i t heq; exact absurd heq (h t)
  · rfl

theorem existsSync_of_not_symlink (fs : FS) (p : String)
    (h : ∀ t, fs p ≠ .symlink t) : existsSync fs p = decide (fs p ≠ .absent) := by
  unfold existsSync
  rw [follow_of_not_symlink fs maxSymlinks p h]

theorem lstatSync_of_existsSync (fs : FS) (p : String) (h : existsSync fs p = true) :
    fs p ≠ .absent := by
  intro habs
  have hns : ∀ t, fs p ≠ .symlink t := by
    intro t ht; rw [habs] at ht; exact Entry.noConfusion ht
  rw [existsSync_of_not_symlink fs p hns] at h
  simp [habs] at h

/-- One turn of the pattern loop, value only. -/
theorem resolveLoop_cons_fst (fs : FS) (pn pat : String) (rest : List String) :
    (resolveLoop fs pn (pat :: rest)).1 =
      if isRegularFile fs (candidate pn pat) then .ok (some (candidate pn pat))
      else (resolveLoop fs pn rest).1 := by
  cases hent : fs (candidate pn pat) with
  | absent =>
    have hex : existsSync fs (candidate pn pat) = false := by
      rw [existsSync_of_not_symlink fs _ (by intro t ht; rw [hent] at ht; exact Entry.noConfusion ht)]
      simp [hent]
    simp [resolveLoop, hex, isRegularFile, hent]
  | file c =>
    have hex : existsSync fs (candidate pn pat) = true := by
      rw [existsSync_of_not_symlink fs _ (by intro t ht; rw [hent] at ht; exact Entry.noConfusion ht)]
      simp [hent]
    simp [resolveLoop, hex, isRegularFile, hent, lstatSync, Stats.isFile]
  | dir =>
    have hex : existsSync fs (candidate pn pat) = true := by
      rw [existsSync_of_not_symlink fs _ (by intro t ht; rw [hent] at ht; exact Entry.noConfusion ht)]
      simp [hent]
    simp [resolveLoop, hex, isRegularFile, hent, lstatSync, Stats.isFile]
  | symlink t =>
    cases hex : existsSync fs (candidate pn pat) <;>
      simp [resolveLoop, hex, isRegularFile, hent, lstatSync, Stats.isFile]

theorem resolveLoop_fst (fs : FS) (pn : String) :
    ∀ pats : List String, (resolveLoop fs pn pats).1 = .ok (firstMatch fs pn pats)
  | [] => rfl
  | pat :: rest => by
    rw [resolveLoop_cons_fst, resolveLoop_fst fs pn rest]
    cases h : isRegularFile fs (candidate pn pat) <;> simp [firstMatch, List.find?_cons, h]

theorem resolveModule_not_ignored (pl : Platform) (fs : FS) (name : String)
    (pats : List String) (h : name ∉ ignoredModules) :
    resolveModule pl fs name pats = resolveLoop fs (platformName pl name) pats := by
  unfold resolveModule
  rw [if_neg]
  simpa using h

theorem existsSync_of_isRegularFile (fs : FS) (p : String) (h : isRegularFile fs p = true) :
    existsSync fs p = true := by
  unfold isRegularFile at h
  cases hent : fs p with
  | file c =>
    rw [existsSync_of_not_symlink fs _ (by intro t ht; rw [hent] at ht; exact Entry.noConfusion ht)]
    simp [hent]
  | absent => simp [hent] at h
  | dir => simp [hent] at h
  | symlink t => simp [hent] at h

theorem isRegularFile_iff (fs : FS) (p : String) :
    isRegularFile fs p = true ↔ ∃ c, fs p = .file c := by
  unfold isRegularFile
  cases fs p <;> simp

theorem firstMatch_eq_none (fs : FS) (pn : String) (pats : List String) :
    firstMatch fs pn pats = none ↔ ∀ pat ∈ pats, isRegularFile fs (candidate pn pat) = false := by
  simp [firstMatch, List.find?_eq_none]

theorem resolveLoop_skip (fs : FS) (pn pat : String) (post : List String)
    (h : isRegularFile fs (candidate pn pat) = false) :
    ∀ pre : List String,
      (resolveLoop fs pn (pre ++ pat :: post)).1 = (resolveLoop fs pn (pre ++ post)).1
  | [] => by simp [resolveLoop_cons_fst, h]
  | q :: pre => by
    simp only [List.cons_append, resolveLoop_cons_fst]
    rw [resolveLoop_skip fs pn pat post h pre]

theorem resolveLoop_hit (fs : FS) (pn pat : String) (post : List String)
    (h : isRegularFile fs (candidate pn pat) = true) :
    ∀ pre : List String, (∀ q ∈ pre, isRegularFile fs (candidate pn q) = false) →
      (resolveLoop fs pn (pre ++ pat :: post)).1 = .ok (some (candidate pn pat))
  | [], _ => by simp [resolveLoop_cons_fst, h]
  | q :: pre, hpre => by
    simp only [List.cons_append, resolveLoop_cons_fst]
    rw [hpre q (List.mem_cons_self q pre)]
    simpa using resolveLoop_hit fs pn pat post h pre
      (fun r hr => hpre r (List.mem_cons_of_mem q hr))

/-! ## Claims on `resolveModule` -/

/-- C1: for a module name outside the ignore list, `resolveModule` returns the
candidate path of the first pattern, in list order, whose candidate path is an
existing regular file, as the string the substitution produced; it returns
`null` exactly when no pattern has such a candidate; a matching pattern wins
over every later one, matching or not. -/
theorem resolveModule_first_match (pl : Platform) (fs : FS) (name : String)
    (pats : List String) (h : name ∉ ignoredModules) :
    (resolveModule pl fs name pats).1 = .ok (firstMatch fs (platformName pl name) pats)
    ∧ ((resolveModule pl fs name pats).1 = .ok none ↔
        ∀ pat ∈ pats, isRegularFile fs (candidate (platformName pl name) pat) = false)
    ∧ (∀ pre pat post, pats = pre ++ pat :: post →
        (∀ q ∈ pre, isRegularFile fs (candidate (platformName pl name) q) = false) →
        isRegularFile fs (candidate (platformName pl name) pat) = true →
        (resolveModule pl fs name pats).1 = .ok (some (candidate (platformName pl name) pat))) := by
  rw [resolveModule_not_ignored pl fs name pats h]
  refine ⟨resolveLoop_fst fs _ pats, ?_, ?_⟩
  · rw [resolveLoop_fst, ← firstMatch_eq_none]
    constructor
    · intro heq; injection heq
    · intro heq; rw [heq]
  · intro pre pat post hp hpre hpat
    subst hp
    exact resolveLoop_hit fs _ pat post hpat pre hpre

theorem resolveModule_first_match_witness :
    "foo.bar" ∉ ignoredModules ∧
    (resolveModule .posix fsFooBar "foo.bar" ["?.lua", "src/?.lua"]).1
      = .ok (firstMatch fsFooBar (platformName .posix "foo.bar") ["?.lua", "src/?.lua"]) :=
  ⟨by decide,
    (resolveModule_first_match .posix fsFooBar "foo.bar" ["?.lua", "src/?.lua"] (by decide)).1⟩

/-- C2: for each of the seven ignored module names `resolveModule` returns
`null` and makes no file-system probe, whatever the patterns and the file
system, also when a matching file exists. -/
theorem resolveModule_ignored (pl : Platform) (fs : FS) (name : String) (pats : List String)
    (h : name ∈ ["lib.moonloader", "lib.mimgui", "ffi", "lib.dkjson", "lfs",
      "lib.samp.events", "encoding"]) :
    resolveModule pl fs name pats = (.ok none, []) := by
  have hmem : name ∈ ignoredModules := h
  unfold resolveModule
  rw [if_pos]
  simpa using hmem

theorem resolveModule_ignored_witness :
    isRegularFile fsFfi (candidate (platformName .posix "ffi") "?.lua") = true ∧
    resolveModule .posix fsFfi "ffi" paths = (.ok none, []) :=
  ⟨by decide, resolveModule_ignored .posix fsFfi "ffi" paths (by decide)⟩

/-- C7: on POSIX, with `src/foo/bar.lua` a regular file and `foo/bar.lua` not
existing, resolving `foo.bar` against `?.lua`, `src/?.lua` returns exactly
`src/foo/bar.lua`. -/
theorem resolveModule_foo_bar (fs : FS)
    (hsrc : isRegularFile fs "src/foo/bar.lua" = true)
    (hcwd : existsSync fs "foo/bar.lua" = false) :
    (resolveModule .posix fs "foo.bar" ["?.lua", "src/?.lua"]).1
      = .ok (some "src/foo/bar.lua") := by
  have hni : "foo.bar" ∉ ignoredModules := by decide
  have h1 : candidate (platformName .posix "foo.bar") "?.lua" = "foo/bar.lua" := by decide
  have h2 : candidate (platformName .posix "foo.bar") "src/?.lua" = "src/foo/bar.lua" := by
    decide
  have hno : isRegularFile fs "foo/bar.lua" = false := by
    cases hr : isRegularFile fs "foo/bar.lua"
    · rfl
    · rw [existsSync_of_isRegularFile fs _ hr] at hcwd; exact absurd hcwd (by decide)
  rw [resolveModule_not_ignored _ _ _ _ hni, resolveLoop_cons_fst, resolveLoop_cons_fst,
    h1, h2, hno, hsrc]
  rfl

theorem resolveModule_foo_bar_witness :
    (resolveModule .posix fsFooBar "foo.bar" ["?.lua", "src/?.lua"]).1
      = .ok (some "src/foo/bar.lua") :=
  resolveModule_foo_bar fsFooBar (by decide) (by decide)

/-- C10: a path returned by `resolveModule` has a regular file as its own
entry, never a directory or a symbolic link; a candidate that is a symbolic
link is skipped, whatever its target, and the remaining patterns decide. -/
theorem resolveModule_never_link_or_dir (pl : Platform) (fs : FS) (name : String) :
    (∀ pats p, (resolveModule pl fs name pats).1 = .ok (some p) →
        (∃ c, fs p = .file c) ∧ fs p ≠ .dir ∧ ∀ t, fs p ≠ .symlink t)
    ∧ (∀ pat rest t, fs (candidate (platformName pl name) pat) = .symlink t →
        (resolveModule pl fs name (pat :: rest)).1 = (resolveModule pl fs name rest).1) := by
  constructor
  · intro pats p hp
    have hfile : ∃ c, fs p = .file c := by
      unfold resolveModule at hp
      split at hp
      · simp at hp
      · rw [resolveLoop_fst] at hp
        have hfm : firstMatch fs (platformName pl name) pats = some p := by
          injection hp
        have := List.find?_some hfm
        exact (isRegularFile_iff fs p).1 this
    obtain ⟨c, hc⟩ := hfile
    refine ⟨⟨c, hc⟩, ?_, ?_⟩
    · rw [hc]; exact fun hh => Entry.noConfusion hh
    · intro t; rw [hc]; exact fun hh => Entry.noConfusion hh
  · intro pat rest t ht
    unfold resolveModule
    split
    · rfl
    · rw [resolveLoop_cons_fst]
      simp [isRegularFile, ht]

theorem resolveModule_never_link_or_dir_witness :
    readFile fsLinked "a.lua" = some "return 3" ∧
    (resolveModule .posix fsLinked "a" ["?.lua", "src/?.lua"]).1
      = (resolveModule .posix fsLinked "a" ["src/?.lua"]).1 :=
  ⟨by decide,
    (resolveModule_never_link_or_dir .posix fsLinked "a").2 "?.lua" ["src/?.lua"] "real.lua"
      (by decide)⟩

/-! ## Lemmas on `String.prototype.replace` -/

theorem replaceFrom_of_not_mem (c : Char) (r : List Char) :
    ∀ (s before : List Char), c ∉ s → replaceFrom c r before s = s
  | [], _, _ => rfl
  | x :: t, before, h => by
    have hx : x ≠ c := fun e => h (e ▸ List.mem_cons_self x t)
    have ht : c ∉ t := fun m => h (List.mem_cons_of_mem x m)
    simp [replaceFrom, hx, replaceFrom_of_not_mem c r t _ ht]

theorem replaceFrom_append (c : Char) (r : List Char) (s : List Char) :
    ∀ (pre before : List Char), c ∉ pre →
      replaceFrom c r before (pre ++ s) = pre ++ replaceFrom c r (before ++ pre) s
  | [], before, _ => by simp
  | x :: t, before, h => by
    have hx : x ≠ c := fun e => h (e ▸ List.mem_cons_self x t)
    have ht : c ∉ t := fun m => h (List.mem_cons_of_mem x m)
    simp [replaceFrom, hx, replaceFrom_append c r s t _ ht]

theorem getSubstitution_of_no_dollar (m b a : List Char) :
    ∀ r : List Char, '$' ∉ r → getSubstitution m b a r = r
  | [], _ => rfl
  | [c], _ => rfl
  | c :: d :: t, h => by
    have hc : c ≠ '$' := fun e => h (e ▸ List.mem_cons_self c _)
    have ht : '$' ∉ d :: t := fun mm => h (List.mem_cons_of_mem c mm)
    rw [getSubstitution, if_neg hc, getSubstitution_of_no_dollar m b a (d :: t) ht]

theorem replaceFrom_single (c sep : Char) :
    ∀ (s before : List Char),
      replaceFrom c [sep] before s = s.map (fun x => if x = c then sep else x)
  | [], _ => rfl
  | x :: t, before => by
    by_cases hx : x = c
    · simp [replaceFrom, hx, getSubstitution, replaceFrom_single c sep t]
    · simp [replaceFrom, hx, replaceFrom_single c sep t]

theorem candidate_of_no_placeholder (pn pat : String) (h : '?' ∉ pat.data) :
    candidate pn pat = pat := by
  unfold candidate jsReplaceAll
  rw [replaceFrom_of_not_mem _ _ _ _ h]

theorem platformName_data (pl : Platform) (name : String) :
    (platformName pl name).data = name.data.map (fun x => if x = '.' then pl.sep else x) := by
  unfold platformName jsReplaceAll
  exact replaceFrom_single '.' pl.sep name.data []

theorem isIdentChar_ne_dollar (c : Char) (h : isIdentChar c = true) : c ≠ '$' := by
  intro e; subst e; revert h; decide

theorem isIdentStart_ne_dollar (c : Char) (h : isIdentStart c = true) : c ≠ '$' := by
  intro e; subst e; revert h; decide

theorem dottedFrom_no_dollar :
    ∀ (s : List Char) (b : Bool), dottedFrom b s = true → '$' ∉ s
  | [], _, _ => by simp
  | c :: t, true, h => by
    simp only [dottedFrom, Bool.and_eq_true] at h
    intro hm
    rcases List.mem_cons.1 hm with e | hm
    · exact isIdentStart_ne_dollar c h.1 e.symm
    · exact dottedFrom_no_dollar t false h.2 hm
  | c :: t, false, h => by
    simp only [dottedFrom] at h
    intro hm
    by_cases hc : c = '.'
    · rw [if_pos hc] at h
      rcases List.mem_cons.1 hm with e | hm
      · rw [hc] at e; exact absurd e (by decide)
      · exact dottedFrom_no_dollar t true h hm
    · rw [if_neg hc, Bool.and_eq_true] at h
      rcases List.mem_cons.1 hm with e | hm
      · exact isIdentChar_ne_dollar c h.1 e.symm
      · exact dottedFrom_no_dollar t false h.2 hm

theorem platformName_no_dollar (pl : Platform) (name : String)
    (h : isDottedIdentifier name = true) : '$' ∉ (platformName pl name).data := by
  rw [platformName_data]
  intro hm
  rcases List.mem_map.1 hm with ⟨x, hx, hxe⟩
  have hxd : x ≠ '$' := fun e => dottedFrom_no_dollar name.data true h (e ▸ hx)
  by_cases hdot : x = '.'
  · rw [if_pos hdot] at hxe
    cases pl <;> exact absurd hxe (by decide)
  · rw [if_neg hdot] at hxe
    exact hxd hxe

theorem platformName_no_dot (pl : Platform) (name : String) :
    '.' ∉ (platformName pl name).data := by
  rw [platformName_data]
  intro hm
  rcases List.mem_map.1 hm with ⟨x, _, hxe⟩
  by_cases hdot : x = '.'
  · rw [if_pos hdot] at hxe
    cases pl <;> exact absurd hxe (by decide)
  · rw [if_neg hdot] at hxe
    exact hdot hxe

theorem candidate_one_placeholder (pn pre suf : String)
    (hpn : '$' ∉ pn.data) (hpre : '?' ∉ pre.data) (hsuf : '?' ∉ suf.data) :
    candidate pn (pre ++ "?" ++ suf) = pre ++ pn ++ suf := by
  unfold candidate jsReplaceAll
  apply String.ext
  have hq : ("?" : String).data = ['?'] := rfl
  simp only [String.data_append, hq, List.append_assoc, List.singleton_append]
  rw [replaceFrom_append _ _ _ _ _ hpre]
  simp only [replaceFrom, if_true]
  rw [getSubstitution_of_no_dollar _ _ _ _ hpn, replaceFrom_of_not_mem _ _ _ _ hsuf]

/-- C8 fails as stated: a pattern without `?` matches when the pattern string
itself names a regular file, and removing it changes the outcome. -/
theorem placeholder_free_pattern_can_match :
    '?' ∉ ("main.lua" : String).data ∧ "foo" ∉ ignoredModules ∧
    (resolveModule .posix fsMain "foo" ["?.lua", "main.lua"]).1 = .ok (some "main.lua") ∧
    (resolveModule .posix fsMain "foo" ["?.lua"]).1 = .ok none := by
  decide

/-- C8 amended: a pattern without `?` is probed as it stands: its candidate
path is the pattern string, whatever the module name.  When that string does
not name an existing regular file the pattern is a silent non-match and the
outcome is that of the list without it; when it does, and no earlier pattern
matches, every non-ignored name resolves to the pattern string.  Neither case
raises an error. -/
theorem placeholder_free_pattern (pl : Platform) (fs : FS) (name pat : String)
    (pre post : List String) (hq : '?' ∉ pat.data) :
    candidate (platformName pl name) pat = pat
    ∧ (isRegularFile fs pat = false →
        (resolveModule pl fs name (pre ++ pat :: post)).1
          = (resolveModule pl fs name (pre ++ post)).1)
    ∧ (isRegularFile fs pat = true → name ∉ ignoredModules →
        (∀ q ∈ pre, isRegularFile fs (candidate (platformName pl name) q) = false) →
        (resolveModule pl fs name (pre ++ pat :: post)).1 = .ok (some pat)) := by
  have hc := candidate_of_no_placeholder (platformName pl name) pat hq
  refine ⟨hc, ?_, ?_⟩
  · intro hno
    unfold resolveModule
    split
    · rfl
    · exact resolveLoop_skip fs _ pat post (by rw [hc]; exact hno) pre
  · intro hyes hni hpre
    rw [resolveModule_not_ignored _ _ _ _ hni]
    have := resolveLoop_hit fs (platformName pl name) pat post (by rw [hc]; exact hyes) pre hpre
    rw [this, hc]

theorem placeholder_free_pattern_witness :
    '?' ∉ ("main.lua" : String).data ∧
    candidate (platformName .posix "foo") "main.lua" = "main.lua" ∧
    (resolveModule .posix fsFooBar "foo" (["?.lua"] ++ "main.lua" :: ["src/?.lua"])).1
      = (resolveModule .posix fsFooBar "foo" (["?.lua"] ++ ["src/?.lua"])).1 :=
  ⟨by decide,
    (placeholder_free_pattern .posix fsFooBar "foo" "main.lua" ["?.lua"] ["src/?.lua"]
      (by decide)).1,
    (placeholder_free_pattern .posix fsFooBar "foo" "main.lua" ["?.lua"] ["src/?.lua"]
      (by decide)).2.1 (by decide)⟩

/-- C9: for a non-empty dotted identifier `name` and a pattern `pre ++ "?" ++
suf` with no other `?`, the candidate path is `pre ++ fragment ++ suf`, and it
is the path `resolveModule` probes for a name that is not ignored; `fragment`
is `name` with each `.` replaced by `path.sep` and every other character
kept, so it has no `.` and the length of `name`. -/
theorem candidate_of_dotted_identifier (pl : Platform) (name pre suf : String)
    (hname : isDottedIdentifier name = true)
    (hpre : '?' ∉ pre.data) (hsuf : '?' ∉ suf.data) :
    candidate (platformName pl name) (pre ++ "?" ++ suf) = pre ++ platformName pl name ++ suf
    ∧ (platformName pl name).data = name.data.map (fun x => if x = '.' then pl.sep else x)
    ∧ '.' ∉ (platformName pl name).data
    ∧ (platformName pl name).length = name.length
    ∧ (name ∉ ignoredModules → ∀ (fs : FS) (rest : List String),
        (resolveModule pl fs name ((pre ++ "?" ++ suf) :: rest)).2.head?
          = some (.existsSync (pre ++ platformName pl name ++ suf))) := by
  have hcand := candidate_one_placeholder (platformName pl name) pre suf
    (platformName_no_dollar pl name hname) hpre hsuf
  refine ⟨hcand, platformName_data pl name, platformName_no_dot pl name, ?_, ?_⟩
  · simp only [String.length, platformName_data, List.length_map]
  · intro hni fs rest
    rw [resolveModule_not_ignored _ _ _ _ hni]
    unfold resolveLoop
    simp only [hcand]
    split
    · split <;> try split
      all_goals rfl
    · rfl

theorem candidate_of_dotted_identifier_witness :
    isDottedIdentifier "foo.bar" = true ∧
    candidate (platformName .win32 "foo.bar") ("src/" ++ "?" ++ ".lua")
      = "src/" ++ platformName .win32 "foo.bar" ++ ".lua" :=
  ⟨by decide,
    (candidate_of_dotted_identifier .win32 "foo.bar" "src/" ".lua" (by decide) (by decide)
      (by decide)).1⟩

/-! ## Lemmas on the steps of the script -/

theorem follow_result_not_symlink (fs : FS) :
    ∀ (n : Nat) (p q : String), follow fs n p = some q → ∀ t, fs q ≠ .symlink t
  | 0, p, q, h => by
    unfold follow at h
    split at h
    · exact absurd h (by simp)
    · rename_i hne
      injection h with h; subst h
      intro t ht; exact hne t ht
  | n + 1, p, q, h => by
    unfold follow at h
    split at h
    · rename_i t heq
      exact follow_result_not_symlink fs n t q h
    · rename_i hne
      injection h with h; subst h
      intro t ht; exact hne t ht

theorem setEntry_self (entryId : String → String) (fs : FS) (q : String) (e : Entry) :
    (fs.setEntry entryId q e) q = e := by
  simp [FS.setEntry]

theorem setEntry_of_apart (entryId : String → String) (fs : FS) (q p : String) (e : Entry)
    (hp : entryId p ≠ entryId q) : (fs.setEntry entryId q e) p = fs p := by
  simp [FS.setEntry, hp]

theorem follow_setEntry (entryId : String → String) (fs : FS) (q : String) (e : Entry)
    (hq : ∀ t, fs q ≠ .symlink t) (he : ∀ t, e ≠ .symlink t) :
    ∀ (n : Nat) (p : String), follow (fs.setEntry entryId q e) n p = follow fs n p := by
  have key : ∀ (n : Nat) (p : String), (entryId p = entryId q ∧ fs p = fs q) →
      follow (fs.setEntry entryId q e) n p = follow fs n p := by
    intro n p hp
    rw [follow_of_not_symlink fs n p (by rw [hp.2]; exact hq),
      follow_of_not_symlink (fs.setEntry entryId q e) n p]
    intro t
    simp only [FS.setEntry, hp, and_self, if_true]
    exact he t
  intro n
  induction n with
  | zero =>
    intro p
    by_cases hp : entryId p = entryId q ∧ fs p = fs q
    · exact key 0 p hp
    · unfold follow; simp only [FS.setEntry, hp, if_false]
  | succ n ih =>
    intro p
    by_cases hp : entryId p = entryId q ∧ fs p = fs q
    · exact key (n + 1) p hp
    · unfold follow
      simp only [FS.setEntry, hp, if_false]
      cases fs p <;> simp [ih]

theorem existsSync_setEntry_of_exists (entryId : String → String) (fs : FS) (q p : String)
    (e : Entry) (hq : ∀ t, fs q ≠ .symlink t) (he : ∀ t, e ≠ .symlink t) (hne : e ≠ .absent)
    (h : existsSync fs p = true) : existsSync (fs.setEntry entryId q e) p = true := by
  unfold existsSync at h ⊢
  rw [follow_setEntry entryId fs q e hq he]
  cases hf : follow fs maxSymlinks p with
  | none => rw [hf] at h; exact absurd h (by simp)
  | some x =>
    rw [hf] at h
    simp only [decide_eq_true_eq] at h ⊢
    by_cases hx : entryId x = entryId q ∧ fs x = fs q
    · simp only [FS.setEntry, hx, and_self, if_true]; exact hne
    · simp only [FS.setEntry, hx, if_false]; exact h

theorem readFile_setEntry_of_no_content (entryId : String → String) (fs : FS) (q p : String)
    (e : Entry) (hq : ∀ t, fs q ≠ .symlink t) (he : ∀ t, e ≠ .symlink t)
    (hqc : ∀ c, fs q ≠ .file c) (hec : ∀ c, e ≠ .file c) :
    readFile (fs.setEntry entryId q e) p = readFile fs p := by
  unfold readFile
  rw [follow_setEntry entryId fs q e hq he]
  cases hf : follow fs maxSymlinks p with
  | none => rfl
  | some x =>
    by_cases hx : entryId x = entryId q ∧ fs x = fs q
    · have hxc : ∀ c, fs x ≠ .file c := by rw [hx.2]; exact hqc
      simp only [FS.setEntry, hx, and_self, if_true]
    · simp only [FS.setEntry, hx, if_false]

theorem readFile_setEntry_of_apart (entryId : String → String) (fs : FS) (q p : String)
    (e : Entry) (hq : ∀ t, fs q ≠ .symlink t) (he : ∀ t, e ≠ .symlink t)
    (hap : ∀ y, follow fs maxSymlinks p = some y → entryId y ≠ entryId q) :
    readFile (fs.setEntry entryId q e) p = readFile fs p := by
  unfold readFile
  rw [follow_setEntry entryId fs q e hq he]
  cases hf : follow fs maxSymlinks p with
  | none => rfl
  | some x => simp only [setEntry_of_apart entryId fs q x e (hap x hf)]

theorem readFile_of_file (fs : FS) (p c : String) (h : fs p = .file c) :
    readFile fs p = some c := by
  unfold readFile
  rw [follow_of_not_symlink fs _ p (by intro t; simp [h])]
  simp [h]

theorem writeFileSync_ok (h : Host) (fs fs2 : FS) (p data : String)
    (hw : writeFileSync h fs p data = .ok fs2) :
    ∃ q, follow fs maxSymlinks p = some q ∧ (∀ t, fs q ≠ .symlink t) ∧ fs q ≠ .dir
      ∧ h.writeDenied q = none ∧ fs2 = fs.setEntry h.entryId q (.file data) := by
  unfold writeFileSync at hw
  cases hf : follow fs maxSymlinks p with
  | none => rw [hf] at hw; exact absurd hw (by simp)
  | some q =>
    rw [hf] at hw
    refine ⟨q, rfl, follow_result_not_symlink fs _ p q hf, ?_⟩
    cases hq : fs q with
    | dir => simp [hq] at hw
    | symlink t => simp [hq] at hw
    | absent =>
      cases hd : h.writeDenied q with
      | some e => simp [hq, hd] at hw
      | none =>
        simp only [hq, hd] at hw
        injection hw with hw
        exact ⟨by simp, rfl, hw.symm⟩
    | file c =>
      cases hd : h.writeDenied q with
      | some e => simp [hq, hd] at hw
      | none =>
        simp only [hq, hd] at hw
        injection hw with hw
        exact ⟨by simp, rfl, hw.symm⟩

theorem readFile_after_write (h : Host) (fs fs2 : FS) (p data : String)
    (hw : writeFileSync h fs p data = .ok fs2) : readFile fs2 p = some data := by
  obtain ⟨q, hf, hns, _, _, rfl⟩ := writeFileSync_ok h fs fs2 p data hw
  unfold readFile
  rw [follow_setEntry h.entryId fs q _ hns (by intro t; simp), hf]
  simp [setEntry_self]

theorem writeFileSync_again (h : Host) (fs fs2 : FS) (p data : String)
    (hw : writeFileSync h fs p data = .ok fs2) : writeFileSync h fs2 p data = .ok fs2 := by
  obtain ⟨q, hf, hns, _, hd, rfl⟩ := writeFileSync_ok h fs fs2 p data hw
  unfold writeFileSync
  rw [follow_setEntry h.entryId fs q _ hns (by intro t; simp), hf]
  have hq : (fs.setEntry h.entryId q (.file data)) q = .file data := setEntry_self _ _ _ _
  simp only [hq, hd]
  congr 1
  funext r
  by_cases hr : h.entryId r = h.entryId q ∧ fs r = fs q
  · simp [FS.setEntry, hr]
  · by_cases hr2 : h.entryId r = h.entryId q ∧
        (fs.setEntry h.entryId q (.file data)) r = .file data
    · simp only [FS.setEntry] at hr2 ⊢
      simp only [and_self, if_true]
      rw [if_pos hr2]
      exact hr2.2.symm
    · simp only [FS.setEntry] at hr2 ⊢
      simp only [and_self, if_true]
      rw [if_neg hr2]

theorem ensureDir_ok (h : Host) (fs fs1 : FS) (hd : ensureDir h fs = .ok fs1) :
    existsSync fs1 outDir = true ∧
    (fs1 = fs ∨ (fs outDir = .absent ∧ fs1 = fs.setEntry h.entryId outDir .dir)) := by
  unfold ensureDir at hd
  by_cases hex : existsSync fs outDir = true
  · rw [if_pos hex] at hd
    injection hd with hd; subst hd
    exact ⟨hex, Or.inl rfl⟩
  · rw [if_neg hex] at hd
    unfold mkdirSync at hd
    cases hent : fs outDir with
    | absent =>
      cases hden : h.mkdirDenied outDir with
      | some e => simp [hent, hden] at hd
      | none =>
        simp only [hent, hden] at hd
        injection hd with hd; subst hd
        refine ⟨?_, Or.inr ⟨rfl, rfl⟩⟩
        rw [existsSync_of_not_symlink]
        · simp [setEntry_self]
        · intro t; simp [setEntry_self]
    | dir =>
      exfalso; apply hex
      rw [existsSync_of_not_symlink fs _ (by intro t; simp [hent])]
      simp [hent]
    | file c =>
      exfalso; apply hex
      rw [existsSync_of_not_symlink fs _ (by intro t; simp [hent])]
      simp [hent]
    | symlink t =>
      exfalso; apply hex
      simp only [hent] at hd
      unfold existsSync
      cases hf : follow fs maxSymlinks outDir with
      | none => simp [hf] at hd
      | some q =>
        simp only [hf] at hd
        by_cases hq : fs q = .dir
        · simp [hq]
        · simp [hq] at hd

theorem ensureDir_frame (h : Host) (fs fs1 : FS) (hd : ensureDir h fs = .ok fs1)
    (p : String) (hp : h.entryId p ≠ h.entryId outDir) : fs1 p = fs p := by
  rcases (ensureDir_ok h fs fs1 hd).2 with rfl | ⟨_, rfl⟩
  · rfl
  · exact setEntry_of_apart h.entryId fs outDir p .dir hp

theorem ensureDir_follow (h : Host) (fs fs1 : FS) (hd : ensureDir h fs = .ok fs1)
    (n : Nat) (p : String) : follow fs1 n p = follow fs n p := by
  rcases (ensureDir_ok h fs fs1 hd).2 with rfl | ⟨habs, rfl⟩
  · rfl
  · exact follow_setEntry h.entryId fs outDir .dir (by simp [habs]) (by simp) n p

theorem ensureDir_readFile (h : Host) (fs fs1 : FS) (hd : ensureDir h fs = .ok fs1)
    (p : String) : readFile fs1 p = readFile fs p := by
  rcases (ensureDir_ok h fs fs1 hd).2 with rfl | ⟨habs, rfl⟩
  · rfl
  · exact readFile_setEntry_of_no_content h.entryId fs outDir p .dir (by simp [habs]) (by simp)
      (by simp [habs]) (by simp)

theorem ensureDir_isRegularFile (h : Host) (fs fs1 : FS) (hd : ensureDir h fs = .ok fs1) :
    isRegularFile fs1 = isRegularFile fs := by
  rcases (ensureDir_ok h fs fs1 hd).2 with rfl | ⟨habs, rfl⟩
  · rfl
  · funext p
    by_cases hp : h.entryId p = h.entryId outDir ∧ fs p = fs outDir
    · have hpa : fs p = .absent := by rw [hp.2, habs]
      simp [isRegularFile, FS.setEntry, hp, hpa, habs]
    · simp [isRegularFile, FS.setEntry, hp]

theorem resolveModule_fst_eq (pl : Platform) (fs : FS) (name : String) (pats : List String) :
    (resolveModule pl fs name pats).1 =
      if ignoredModules.contains name then .ok none
      else .ok (firstMatch fs (platformName pl name) pats) := by
  unfold resolveModule
  split
  · rfl
  · exact resolveLoop_fst fs _ pats

theorem ensureDir_moduleLookup (h : Host) (fs fs1 : FS) (hd : ensureDir h fs = .ok fs1)
    (pl : Platform) : moduleLookup pl fs1 = moduleLookup pl fs := by
  funext name
  unfold moduleLookup
  simp only [resolveModule_fst_eq, firstMatch, ensureDir_isRegularFile h fs fs1 hd,
    ensureDir_readFile h fs fs1 hd]

theorem firstMatch_congr (fs fs2 : FS) (pn : String) :
    ∀ pats : List String,
      (∀ pat ∈ pats, fs2 (candidate pn pat) = fs (candidate pn pat)) →
      firstMatch fs2 pn pats = firstMatch fs pn pats
  | [], _ => rfl
  | pat :: rest, hp => by
    have h1 : isRegularFile fs2 (candidate pn pat) = isRegularFile fs (candidate pn pat) := by
      simp only [isRegularFile, hp pat (List.mem_cons_self pat rest)]
    have ih := firstMatch_congr fs fs2 pn rest
      (fun q hq => hp q (List.mem_cons_of_mem pat hq))
    simp only [firstMatch, List.map_cons, List.find?_cons] at ih ⊢
    rw [h1, ih]

theorem firstMatch_mem (fs : FS) (pn p : String) (pats : List String)
    (h : firstMatch fs pn pats = some p) :
    (∃ pat ∈ pats, p = candidate pn pat) ∧ ∃ c, fs p = .file c := by
  unfold firstMatch at h
  have hmem := List.mem_of_find?_eq_some h
  have hreg := List.find?_some h
  rcases List.mem_map.1 hmem with ⟨pat, hpat, hpe⟩
  exact ⟨⟨pat, hpat, hpe.symm⟩, (isRegularFile_iff fs p).1 hreg⟩

/-- A write to an entry that no candidate path of `name` names leaves the
lookup of `name` as it was. -/
theorem moduleLookup_setEntry_of_apart (entryId : String → String) (pl : Platform) (fs : FS)
    (q name : String) (e : Entry)
    (hap : ∀ pat ∈ paths, entryId (candidate (platformName pl name) pat) ≠ entryId q) :
    moduleLookup pl (fs.setEntry entryId q e) name = moduleLookup pl fs name := by
  have hfm : firstMatch (fs.setEntry entryId q e) (platformName pl name) paths
      = firstMatch fs (platformName pl name) paths :=
    firstMatch_congr fs _ _ paths
      (fun pat hpat => setEntry_of_apart entryId fs q _ e (hap pat hpat))
  unfold moduleLookup
  rw [resolveModule_fst_eq, resolveModule_fst_eq, hfm]
  by_cases hig : ignoredModules.contains name = true
  · simp only [hig, if_true]
  · simp only [hig]
    cases hres : firstMatch fs (platformName pl name) paths with
    | none => rfl
    | some p =>
      obtain ⟨⟨pat, hpat, hpe⟩, c, hc⟩ := firstMatch_mem fs _ p paths hres
      have hsame : (fs.setEntry entryId q e) p = fs p := by
        rw [hpe]; exact setEntry_of_apart entryId fs q _ e (hap pat hpat)
      simp only [Bool.false_eq_true, if_false]
      rw [readFile_of_file fs p c hc, readFile_of_file _ p c (by rw [hsame, hc])]

/-- On the entry file of `fsProject` the toy bundler looks up `util` only. -/
theorem toyHost_reads_util
    (l : String → Except JSError (Option (String × Option String)))
    (hl : ∀ n ∈ ["util"], l n = moduleLookup toyHost.platform fsProject n) :
    toyHost.luabundle (readFile fsProject (srcFile toyHost.platform)) l
      = toyHost.luabundle (readFile fsProject (srcFile toyHost.platform))
          (moduleLookup toyHost.platform fsProject) := by
  have hu := hl "util" (List.mem_singleton.2 rfl)
  have he : readFile fsProject (srcFile toyHost.platform) = some "require util" := by decide
  have hn : (⟨("require util" : String).data.drop 8⟩ : String) = "util" := by decide
  have ht : ("require util" : String).data.take 8 = ("require " : String).data := by decide
  rw [he]
  show inlineOneRequire (some "require util") l
    = inlineOneRequire (some "require util") (moduleLookup toyHost.platform fsProject)
  unfold inlineOneRequire
  simp only [ht, hn, hu, if_true]

/-! ## Claims on the run -/

/-- C3: when the directory step has succeeded and the bundle step fails with
error `e`, the run makes no `writeFileSync` call, the output file is as it was
before the run (same entry, same text), `console.error` prints one line that
carries `e.message`, and the process exits with status 1. -/
theorem run_bundle_failure (h : Host) (fs fs1 : FS) (e : JSError)
    (hdir : ensureDir h fs = .ok fs1) (hb : bundle h fs1 = .error e) :
    (run h fs).writeCalls = []
    ∧ (run h fs).fs = fs1
    ∧ (run h fs).fs (outFile h.platform) = fs (outFile h.platform)
    ∧ readFile (run h fs).fs (outFile h.platform) = readFile fs (outFile h.platform)
    ∧ (run h fs).console = [.error ("Bundling failed: " ++ e.message)]
    ∧ (run h fs).termination = .exit 1
    ∧ (run h fs).termination.exitStatus = 1 := by
  have hrun : run h fs = ⟨fs1, [.error ("Bundling failed: " ++ e.message)], [], .exit 1⟩ := by
    simp only [run, hdir, hb]
  rw [hrun]
  exact ⟨rfl, rfl, ensureDir_frame h fs fs1 hdir _ h.outputApart,
    ensureDir_readFile h fs fs1 hdir _, rfl, rfl, rfl⟩

theorem run_bundle_failure_witness :
    (run toyHost fsEmpty).writeCalls = []
    ∧ (run toyHost fsEmpty).fs = fsEmpty.setEntry toyHost.entryId outDir .dir
    ∧ (run toyHost fsEmpty).fs (outFile toyHost.platform) = fsEmpty (outFile toyHost.platform)
    ∧ readFile (run toyHost fsEmpty).fs (outFile toyHost.platform)
        = readFile fsEmpty (outFile toyHost.platform)
    ∧ (run toyHost fsEmpty).console
        = [.error ("Bundling failed: " ++
            (JSError.mk "ENOENT: no such file or directory, open entry").message)]
    ∧ (run toyHost fsEmpty).termination = .exit 1
    ∧ (run toyHost fsEmpty).termination.exitStatus = 1 :=
  run_bundle_failure toyHost fsEmpty (fsEmpty.setEntry toyHost.entryId outDir .dir)
    ⟨"ENOENT: no such file or directory, open entry"⟩ (by rfl) (by rfl)

/-- C4 fails as stated: with a read-only working directory the directory step
throws outside the `try` block; nothing is printed by the script, in
particular no line with the prefix, and the exception is uncaught. -/
theorem run_mkdir_error_escapes :
    ensureDir readOnlyHost fsEmpty = .error ⟨"EACCES: permission denied, mkdir build"⟩
    ∧ (run readOnlyHost fsEmpty).console = []
    ∧ (run readOnlyHost fsEmpty).termination
        = .uncaught ⟨"EACCES: permission denied, mkdir build"⟩ := by
  refine ⟨by rfl, by rfl, by rfl⟩

/-- C4 amended: an error thrown by the bundle step or by the write step is
caught, printed as `Bundling failed: ` followed by its message, and ends the
run with exit status 1.  An error thrown while ensuring the output directory
is fatal too, with exit status 1, but it is outside the `try` block: it is an
uncaught exception and the script prints nothing for it.  Every run that does
not complete has exit status 1. -/
theorem run_error_handling (h : Host) (fs : FS) :
    (∀ e, ensureDir h fs = .error e →
        (run h fs).termination = .uncaught e ∧ (run h fs).console = []
        ∧ (run h fs).termination.exitStatus = 1)
    ∧ (∀ fs1 e, ensureDir h fs = .ok fs1 → bundle h fs1 = .error e →
        (run h fs).console = [.error ("Bundling failed: " ++ e.message)]
        ∧ (run h fs).termination = .exit 1 ∧ (run h fs).termination.exitStatus = 1)
    ∧ (∀ fs1 content e, ensureDir h fs = .ok fs1 → bundle h fs1 = .ok content →
        writeFileSync h fs1 (outFile h.platform) content = .error e →
        (run h fs).console = [.error ("Bundling failed: " ++ e.message)]
        ∧ (run h fs).termination = .exit 1 ∧ (run h fs).termination.exitStatus = 1)
    ∧ ((run h fs).termination = .completed ∨ (run h fs).termination.exitStatus = 1) := by
  refine ⟨?_, ?_, ?_, ?_⟩
  · intro e hd
    simp only [run, hd, Termination.exitStatus, and_self]
  · intro fs1 e hd hb
    simp only [run, hd, hb, Termination.exitStatus, and_self]
  · intro fs1 content e hd hb hw
    simp only [run, hd, hb, hw, Termination.exitStatus, and_self]
  · cases hd : ensureDir h fs with
    | error e => right; simp only [run, hd, Termination.exitStatus]
    | ok fs1 =>
      cases hb : bundle h fs1 with
      | error e => right; simp only [run, hd, hb, Termination.exitStatus]
      | ok content =>
        cases hw : writeFileSync h fs1 (outFile h.platform) content with
        | error e => right; simp only [run, hd, hb, hw, Termination.exitStatus]
        | ok fs2 => left; simp only [run, hd, hb, hw]

theorem run_error_handling_witness :
    (run readOnlyHost fsPlain).console
      = [.error ("Bundling failed: " ++ "EACCES: permission denied, open build/smsmenu.lua")]
    ∧ (run readOnlyHost fsPlain).termination = .exit 1
    ∧ (run readOnlyHost fsPlain).termination.exitStatus = 1 :=
  (run_error_handling readOnlyHost fsPlain).2.2.1 fsPlain "print(1)"
    ⟨"EACCES: permission denied, open build/smsmenu.lua"⟩ (by rfl) (by rfl) (by rfl)

/-- C5: when the directory step, the bundle step and the write step succeed,
the output file afterwards holds exactly the text the bundle step returned,
whatever it held before; the one `writeFileSync` call carries that text; the
script prints the success line naming the output path (`build/smsmenu.lua` on
POSIX), makes no `console.error` call and ends with exit status 0. -/
theorem run_success (h : Host) (fs fs1 fs2 : FS) (content : String)
    (hdir : ensureDir h fs = .ok fs1) (hb : bundle h fs1 = .ok content)
    (hw : writeFileSync h fs1 (outFile h.platform) content = .ok fs2) :
    readFile (run h fs).fs (outFile h.platform) = some content
    ∧ (run h fs).writeCalls = [(outFile h.platform, content)]
    ∧ (run h fs).console = [.log ("Successfully bundled to " ++ outFile h.platform)]
    ∧ (run h fs).termination = .completed
    ∧ (run h fs).termination.exitStatus = 0
    ∧ (h.platform = .posix → outFile h.platform = "build/smsmenu.lua") := by
  have hrun : run h fs = ⟨fs2, [.log ("Successfully bundled to " ++ outFile h.platform)],
      [(outFile h.platform, content)], .completed⟩ := by
    simp only [run, hdir, hb, hw]
  rw [hrun]
  refine ⟨readFile_after_write h fs1 fs2 _ content hw, rfl, rfl, rfl, rfl, ?_⟩
  intro hp; rw [hp]; decide

theorem run_success_witness :
    readFile fsPlain "build/smsmenu.lua" = some "stale"
    ∧ readFile (run toyHost fsPlain).fs (outFile toyHost.platform) = some "print(1)"
    ∧ (run toyHost fsPlain).console = [.log ("Successfully bundled to " ++ "build/smsmenu.lua")] :=
  ⟨by decide,
    (run_success toyHost fsPlain fsPlain
      (fsPlain.setEntry toyHost.entryId "build/smsmenu.lua" (.file "print(1)"))
      "print(1)" (by rfl) (by rfl) (by rfl)).1,
    (run_success toyHost fsPlain fsPlain
      (fsPlain.setEntry toyHost.entryId "build/smsmenu.lua" (.file "print(1)"))
      "print(1)" (by rfl) (by rfl) (by rfl)).2.2.1⟩

/-- C6 fails as stated: the entry file requires `build.smsmenu`, which the
first run finds under `src/`; the first run succeeds and changes no source
file, yet the second run resolves the same name through `?.lua` to the output
file of the first run and writes a different text. -/
theorem run_twice_differs :
    (run toyHost fsRequiresBuild).termination = .completed
    ∧ (run toyHost fsRequiresBuild).fs "src/smsmenu.lua" = fsRequiresBuild "src/smsmenu.lua"
    ∧ (run toyHost fsRequiresBuild).fs "src/build/smsmenu.lua"
        = fsRequiresBuild "src/build/smsmenu.lua"
    ∧ (resolveModule .posix fsRequiresBuild "build.smsmenu" paths).1
        = .ok (some "src/build/smsmenu.lua")
    ∧ (resolveModule .posix (run toyHost fsRequiresBuild).fs "build.smsmenu" paths).1
        = .ok (some "build/smsmenu.lua")
    ∧ readFile (run toyHost fsRequiresBuild).fs (outFile .posix)
        = some "require build.smsmenu\nreturn 1"
    ∧ (run toyHost (run toyHost fsRequiresBuild).fs).termination = .completed
    ∧ readFile (run toyHost (run toyHost fsRequiresBuild).fs).fs (outFile .posix)
        = some "require build.smsmenu\nrequire build.smsmenu\nreturn 1" := by
  decide

/-- The same failure through another spelling of the output file: the entry
requires `build..smsmenu`, whose candidate under `?.lua` is
`build//smsmenu.lua`; after the first run that path shows the output file and
the second run bundles it. -/
theorem run_twice_differs_alias :
    (run toyHost fsRequiresAlias).termination = .completed
    ∧ candidate (platformName .posix "build..smsmenu") "?.lua" = "build//smsmenu.lua"
    ∧ (resolveModule .posix fsRequiresAlias "build..smsmenu" paths).1
        = .ok (some "src/build//smsmenu.lua")
    ∧ (resolveModule .posix (run toyHost fsRequiresAlias).fs "build..smsmenu" paths).1
        = .ok (some "build//smsmenu.lua")
    ∧ readFile (run toyHost fsRequiresAlias).fs (outFile .posix)
        = some "require build..smsmenu\nreturn 1"
    ∧ (run toyHost (run toyHost fsRequiresAlias).fs).termination = .completed
    ∧ readFile (run toyHost (run toyHost fsRequiresAlias).fs).fs (outFile .posix)
        = some "require build..smsmenu\nrequire build..smsmenu\nreturn 1" := by
  decide

/-- C6 amended: let `deps` be the module names the bundle step looks up in the
initial state (the bundle does not change while the entry text and the lookups
of these names stay as they are), and let the output entry be the entry the
output path leads to in the initial state.  If a run succeeds, the entry file
does not lead to the output entry, and no candidate path (under
`options.paths`) of a name in `deps` is a spelling of the output entry, then a
second run right after the first succeeds too and writes the same text to the
output file. -/
theorem run_twice_same_output (h : Host) (fs : FS) (deps : List String)
    (hdeps : ∀ l : String → Except JSError (Option (String × Option String)),
      (∀ n ∈ deps, l n = moduleLookup h.platform fs n) →
      h.luabundle (readFile fs (srcFile h.platform)) l
        = h.luabundle (readFile fs (srcFile h.platform)) (moduleLookup h.platform fs))
    (hok : (run h fs).termination = .completed)
    (hentry : ∀ q y, follow fs maxSymlinks (outFile h.platform) = some q →
      follow fs maxSymlinks (srcFile h.platform) = some y → h.entryId y ≠ h.entryId q)
    (hmods : ∀ q, follow fs maxSymlinks (outFile h.platform) = some q →
      ∀ n ∈ deps, ∀ pat ∈ paths,
        h.entryId (candidate (platformName h.platform n) pat) ≠ h.entryId q) :
    (run h (run h fs).fs).termination = .completed
    ∧ (run h (run h fs).fs).writeCalls = (run h fs).writeCalls
    ∧ (∃ content, (run h fs).writeCalls = [(outFile h.platform, content)]
        ∧ readFile (run h fs).fs (outFile h.platform) = some content
        ∧ readFile (run h (run h fs).fs).fs (outFile h.platform) = some content) := by
  cases hdir : ensureDir h fs with
  | error e => simp [run, hdir] at hok
  | ok fs1 =>
    cases hb : bundle h fs1 with
    | error e => simp [run, hdir, hb] at hok
    | ok content =>
      cases hw : writeFileSync h fs1 (outFile h.platform) content with
      | error e => simp [run, hdir, hb, hw] at hok
      | ok fs2 =>
        have hrun : run h fs = ⟨fs2, [.log ("Successfully bundled to " ++ outFile h.platform)],
            [(outFile h.platform, content)], .completed⟩ := by
          simp only [run, hdir, hb, hw]
        rw [hrun]
        simp only
        obtain ⟨q, hf, hns, hnd, hden, hfs2⟩ := writeFileSync_ok h fs1 fs2 _ content hw
        have hfq : follow fs maxSymlinks (outFile h.platform) = some q := by
          rw [← ensureDir_follow h fs fs1 hdir]; exact hf
        have hex2 : existsSync fs2 outDir = true := by
          rw [hfs2]
          exact existsSync_setEntry_of_exists h.entryId fs1 q outDir _ hns (by simp) (by simp)
            (ensureDir_ok h fs fs1 hdir).1
        have hdir2 : ensureDir h fs2 = .ok fs2 := by
          unfold ensureDir; rw [if_pos hex2]
        have hsrc : readFile fs2 (srcFile h.platform) = readFile fs (srcFile h.platform) := by
          rw [hfs2, ← ensureDir_readFile h fs fs1 hdir]
          exact readFile_setEntry_of_apart h.entryId fs1 q _ _ hns (by simp)
            (fun y hy => hentry q y hfq (by rw [← ensureDir_follow h fs fs1 hdir]; exact hy))
        have hlook : ∀ n ∈ deps,
            moduleLookup h.platform fs2 n = moduleLookup h.platform fs n := by
          intro n hn
          rw [hfs2, ← ensureDir_moduleLookup h fs fs1 hdir]
          exact moduleLookup_setEntry_of_apart h.entryId h.platform fs1 q n _ (hmods q hfq n hn)
        have hb2 : bundle h fs2 = .ok content := by
          unfold bundle at hb ⊢
          rw [hsrc, hdeps _ hlook, ← ensureDir_moduleLookup h fs fs1 hdir,
            ← ensureDir_readFile h fs fs1 hdir]
          exact hb
        have hw2 := writeFileSync_again h fs1 fs2 _ content hw
        have hrun2 : run h fs2 = ⟨fs2, [.log ("Successfully bundled to " ++ outFile h.platform)],
            [(outFile h.platform, content)], .completed⟩ := by
          simp only [run, hdir2, hb2, hw2]
        rw [hrun2]
        exact ⟨rfl, rfl, content, rfl, readFile_after_write h fs1 fs2 _ content hw,
          readFile_after_write h fs1 fs2 _ content hw⟩

theorem run_twice_same_output_witness :
    readFile (run toyHost fsProject).fs (outFile .posix) = some "require util\nreturn 1"
    ∧ (run toyHost (run toyHost fsProject).fs).termination = .completed
    ∧ (run toyHost (run toyHost fsProject).fs).writeCalls = (run toyHost fsProject).writeCalls := by
  have hout : follow fsProject maxSymlinks (outFile toyHost.platform)
      = some "build/smsmenu.lua" := by decide
  have hsrc : follow fsProject maxSymlinks (srcFile toyHost.platform)
      = some "src/smsmenu.lua" := by decide
  have w := run_twice_same_output toyHost fsProject ["util"] toyHost_reads_util (by decide)
    (by
      intro q y hq hy
      rw [hout] at hq; rw [hsrc] at hy
      injection hq with hq; injection hy with hy
      subst hq; subst hy
      decide)
    (by
      intro q hq
      rw [hout] at hq
      injection hq with hq
      subst hq
      decide)
  exact ⟨by decide, w.1, w.2.1⟩

end SmsMenuBuild
